import Mathlib

/-!
Shallow embedding of the Next.js + Prisma user CRUD application.

The repository consists of five HTTP handlers over a single Prisma model
(`model User { id Int @id @default(autoincrement()); name String; email String @unique }`,
declared in the project README) and three browser views.  We embed:

* the persisted table and the Prisma client operations the handlers call
  (`findMany`, `findUnique`, `create`, `update`, `delete`), with the
  auto-increment id and the unique-email constraint enforced by the engine;
* JavaScript `parseInt` as used on the `[id]` route parameter (decimal
  semantics: leading whitespace, optional sign, longest run of digits,
  `none` standing for `NaN`);
* the API handlers `GET`/`POST` of `app/api/users/route.ts`
  (file `src/unnamed/part_000`) and `GET`/`PUT`/`DELETE` of
  `app/api/users/[id]/route.ts` (`src/app/page.tsx`, lines 88-112); an
  error the handler does not catch is returned as `Except.error`,
  standing for the unhandled exception propagating out of the handler;
* the client-side `deleteUser` handler of the list view
  (`src/app/page.tsx`, lines 30-40).
-/

/-- A persisted `User` row of the Prisma schema:
`id Int @id @default(autoincrement())`, `name String`, `email String @unique`. -/
structure User where
  id : Int
  name : String
  email : String
deriving DecidableEq, Repr

/-- The persisted database state: the rows of the `User` table together with
the auto-increment counter the engine uses to generate the next id. -/
structure DB where
  rows : List User
  nextId : Int
deriving DecidableEq, Repr

/-- A data-layer failure that the API handlers do not catch:
`recordNotFound` is Prisma's "record to update/delete does not exist" error,
`uniqueViolation` is the database unique-constraint error on `email`. -/
inductive PrismaError where
  | recordNotFound
  | uniqueViolation
deriving DecidableEq, Repr

/-- The longest leading run of decimal digits of a character list, or `none`
when there is no leading digit (the `NaN` outcome of `parseInt`). -/
def parseDigits (cs : List Char) : Option Nat :=
  let ds := cs.takeWhile (fun c => c.isDigit)
  if ds.isEmpty then none
  else some (ds.foldl (fun acc c => acc * 10 + (c.toNat - 48)) 0)

/-- JavaScript `parseInt(s)` restricted to decimal input, as applied to the
route parameter `params.id`: skip leading whitespace, read an optional sign
and the longest run of digits; `none` models the `NaN` result. -/
def parseIntJS (s : String) : Option Int :=
  let cs := s.toList.dropWhile (fun c => c.isWhitespace)
  match cs with
  | '-' :: rest => (parseDigits rest).map (fun n => -(n : Int))
  | '+' :: rest => (parseDigits rest).map (fun n => (n : Int))
  | _ => (parseDigits cs).map (fun n => (n : Int))

namespace PrismaUser

/-- Prisma `prisma.user.findMany()`: all rows, in table order. -/
def findMany (db : DB) : List User :=
  db.rows

/-- Prisma `prisma.user.findUnique({ where: { id } })`.  The argument is the
value `parseInt` produced; `none` (`NaN`) matches no row, so the lookup
yields no user, as the specification describes for a non-numeric id. -/
def findUnique (db : DB) (oi : Option Int) : Option User :=
  match oi with
  | none => none
  | some n => db.rows.find? (fun u => u.id == n)

/-- Prisma `prisma.user.create({ data: { name, email } })` against the schema:
the engine assigns the auto-increment id and enforces the unique `email`
constraint, rejecting the insert when the email is already persisted. -/
def create (db : DB) (name email : String) : Except PrismaError (User × DB) :=
  if ∃ u ∈ db.rows, u.email = email then
    .error .uniqueViolation
  else
    let u : User := ⟨db.nextId, name, email⟩
    .ok (u, ⟨db.rows ++ [u], db.nextId + 1⟩)

/-- The effect of `update` on a single row: the row whose id matches is
overwritten in both `name` and `email` (its id kept), every other row is
left untouched. -/
def updOne (n : Int) (name email : String) (u : User) : User :=
  if u.id = n then ⟨u.id, name, email⟩ else u

/-- Prisma `prisma.user.update({ where: { id }, data: { name, email } })`:
fails with `recordNotFound` when no row matches the id (in particular for a
`NaN` id), fails with `uniqueViolation` when another row already holds the
new email, and otherwise overwrites both fields of the matching row and
returns the updated row. -/
def update (db : DB) (oi : Option Int) (name email : String) :
    Except PrismaError (User × DB) :=
  match oi with
  | none => .error .recordNotFound
  | some n =>
    if ∃ u ∈ db.rows, u.id = n then
      if ∃ u ∈ db.rows, u.id ≠ n ∧ u.email = email then
        .error .uniqueViolation
      else
        .ok (⟨n, name, email⟩, ⟨db.rows.map (updOne n name email), db.nextId⟩)
    else .error .recordNotFound

/-- Prisma `prisma.user.delete({ where: { id } })`: fails with
`recordNotFound` when no row matches the id, otherwise removes the row. -/
def delete (db : DB) (oi : Option Int) : Except PrismaError DB :=
  match oi with
  | none => .error .recordNotFound
  | some n =>
    if ∃ u ∈ db.rows, u.id = n then
      .ok ⟨db.rows.filter (fun u => u.id != n), db.nextId⟩
    else .error .recordNotFound

end PrismaUser

/-- A JSON response body: a single row, the full list, or a message object
such as `{message: "User not found"}`. -/
inductive Body where
  | user (u : User)
  | users (us : List User)
  | message (m : String)
deriving DecidableEq, Repr

/-- An HTTP response: `NextResponse.json(body)` is status 200,
`NextResponse.json(body, { status: 404 })` carries the explicit status. -/
structure Response where
  status : Nat
  body : Body
deriving DecidableEq, Repr

namespace UsersRoute

/-- Handler `GET` of `app/api/users/route.ts`: returns every row as JSON. -/
def GET (db : DB) : Response :=
  ⟨200, .users (PrismaUser.findMany db)⟩

/-- Handler `POST` of `app/api/users/route.ts`: reads `{name, email}` from
the body, calls `prisma.user.create`, and returns the created row; a
database error (duplicate email) propagates unhandled. -/
def POST (db : DB) (name email : String) : Except PrismaError (Response × DB) :=
  (PrismaUser.create db name email).map (fun p => (⟨200, .user p.1⟩, p.2))

end UsersRoute

namespace UserIdRoute

/-- Handler `GET` of `app/api/users/[id]/route.ts` (`src/app/page.tsx` 88-96):
parses `params.id` with `parseInt`, calls `prisma.user.findUnique`, and
returns the row, or a 404 `{message: "User not found"}` when none matches. -/
def GET (db : DB) (idParam : String) : Response :=
  match PrismaUser.findUnique db (parseIntJS idParam) with
  | none => ⟨404, .message "User not found"⟩
  | some u => ⟨200, .user u⟩

/-- Handler `PUT` of `app/api/users/[id]/route.ts` (`src/app/page.tsx` 98-105):
parses `params.id`, calls `prisma.user.update` with `{name, email}`, and
returns the updated row; a data-layer error propagates unhandled. -/
def PUT (db : DB) (idParam name email : String) :
    Except PrismaError (Response × DB) :=
  (PrismaUser.update db (parseIntJS idParam) name email).map
    (fun p => (⟨200, .user p.1⟩, p.2))

/-- Handler `DELETE` of `app/api/users/[id]/route.ts` (`src/app/page.tsx`
107-112): parses `params.id`, calls `prisma.user.delete`, and returns
`{message: "User deleted"}`; a data-layer error propagates unhandled. -/
def DELETE (db : DB) (idParam : String) : Except PrismaError (Response × DB) :=
  (PrismaUser.delete db (parseIntJS idParam)).map
    (fun db2 => (⟨200, .message "User deleted"⟩, db2))

end UserIdRoute

/-- Client handler `deleteUser` of the list view (`src/app/page.tsx` 30-40):
issues the DELETE request; when the response is not `ok` it throws, the
`catch` only logs, and the local `users` state is left unchanged; when the
response is `ok` it sets the state to
`users.filter((user) => user.id !== id)`. -/
def deleteUser (users : List User) (resOk : Bool) (i : Int) : List User :=
  if resOk then users.filter (fun u => u.id != i) else users

/-- A write operation of the HTTP surface, as issued by the views:
create, update by id, delete by id. -/
inductive Op where
  | post (name email : String)
  | put (idParam name email : String)
  | del (idParam : String)

/-- The persisted state after one handler call: a successful handler commits
the new state; a handler that fails with an unhandled error leaves the
persisted state unchanged (the engine rejected the write). -/
def stepDB (db : DB) : Op → DB
  | .post n e =>
    match UsersRoute.POST db n e with
    | .ok p => p.2
    | .error _ => db
  | .put i n e =>
    match UserIdRoute.PUT db i n e with
    | .ok p => p.2
    | .error _ => db
  | .del i =>
    match UserIdRoute.DELETE db i with
    | .ok p => p.2
    | .error _ => db

/-- The persisted state after a sequence of handler calls. -/
def runOps (db : DB) (ops : List Op) : DB :=
  ops.foldl stepDB db

/-- The database invariant of the schema: ids are pairwise distinct (primary
key), emails are pairwise distinct (unique constraint), and every persisted
id is below the auto-increment counter. -/
def DB.Inv (db : DB) : Prop :=
  (db.rows.map User.id).Nodup ∧ (db.rows.map User.email).Nodup ∧
    ∀ u ∈ db.rows, u.id < db.nextId

/-! Helper lemmas about the Prisma layer. -/

theorem updOne_id (n : Int) (nm em : String) (u : User) :
    (PrismaUser.updOne n nm em u).id = u.id := by
  unfold PrismaUser.updOne
  split <;> rfl

theorem map_id_updOne (rows : List User) (n : Int) (nm em : String) :
    (rows.map (PrismaUser.updOne n nm em)).map User.id = rows.map User.id := by
  induction rows with
  | nil => rfl
  | cons u rest ih => simp only [List.map_cons, ih, updOne_id]

theorem nodup_email_updOne (rows : List User) (n : Int) (nm em : String)
    (hid : (rows.map User.id).Nodup)
    (hem : (rows.map User.email).Nodup)
    (hfresh : ∀ u ∈ rows, u.id ≠ n → u.email ≠ em) :
    ((rows.map (PrismaUser.updOne n nm em)).map User.email).Nodup := by
  induction rows with
  | nil => simp
  | cons u rest ih =>
    simp only [List.map_cons, List.nodup_cons] at hid hem ⊢
    obtain ⟨hidn, hidr⟩ := hid
    obtain ⟨hemn, hemr⟩ := hem
    have hfr : ∀ v ∈ rest, v.id ≠ n → v.email ≠ em :=
      fun v hv => hfresh v (List.mem_cons_of_mem _ hv)
    refine ⟨?_, ih hidr hemr hfr⟩
    intro hcon
    obtain ⟨w, hw, hwe⟩ := List.mem_map.mp hcon
    obtain ⟨v, hv, hvw⟩ := List.mem_map.mp hw
    subst hvw
    by_cases hu : u.id = n
    · have hvn : v.id ≠ n := by
        intro hvn
        exact hidn (List.mem_map.mpr ⟨v, hv, by rw [hvn, hu]⟩)
      have h1 : (PrismaUser.updOne n nm em v).email = v.email := by
        unfold PrismaUser.updOne
        rw [if_neg hvn]
      have h2 : (PrismaUser.updOne n nm em u).email = em := by
        unfold PrismaUser.updOne
        rw [if_pos hu]
      rw [h1, h2] at hwe
      exact hfr v hv hvn hwe
    · have h2 : (PrismaUser.updOne n nm em u).email = u.email := by
        unfold PrismaUser.updOne
        rw [if_neg hu]
      rw [h2] at hwe
      by_cases hvn : v.id = n
      · have h1 : (PrismaUser.updOne n nm em v).email = em := by
          unfold PrismaUser.updOne
          rw [if_pos hvn]
        rw [h1] at hwe
        exact hfresh u (List.mem_cons_self u rest) hu hwe.symm
      · have h1 : (PrismaUser.updOne n nm em v).email = v.email := by
          unfold PrismaUser.updOne
          rw [if_neg hvn]
        rw [h1] at hwe
        exact hemn (List.mem_map.mpr ⟨v, hv, hwe⟩)

theorem find_id_eq (rows : List User) (n : Int) (u : User)
    (hid : (rows.map User.id).Nodup) (hu : u ∈ rows) (hn : u.id = n) :
    rows.find? (fun v => v.id == n) = some u := by
  induction rows with
  | nil => cases hu
  | cons w rest ih =>
    simp only [List.map_cons, List.nodup_cons] at hid
    obtain ⟨hwn, hrest⟩ := hid
    rcases List.mem_cons.mp hu with h | h
    · subst h
      exact List.find?_cons_of_pos _ (by simp [hn])
    · by_cases hw : w.id = n
      · exact absurd (List.mem_map.mpr ⟨u, h, by rw [hn, hw]⟩) hwn
      · rw [List.find?_cons_of_neg _ (by simp [hw])]
        exact ih hrest h

/-! Preservation of the database invariant by each handler. -/

theorem create_inv (db : DB) (nm em : String) (u : User) (db2 : DB)
    (hinv : db.Inv) (h : PrismaUser.create db nm em = .ok (u, db2)) :
    db2.Inv := by
  obtain ⟨hid, hem, hlt⟩ := hinv
  simp only [PrismaUser.create] at h
  split at h
  · exact absurd h (by simp)
  · next hfresh =>
    simp only [Except.ok.injEq, Prod.mk.injEq] at h
    obtain ⟨hu, hdb⟩ := h
    subst hdb
    refine ⟨?_, ?_, ?_⟩
    · simp only [List.map_append, List.map_cons, List.map_nil]
      rw [List.nodup_append]
      refine ⟨hid, List.nodup_singleton _, List.disjoint_singleton.mpr ?_⟩
      intro hcon
      obtain ⟨v, hv, hva⟩ := List.mem_map.mp hcon
      exact absurd (hva ▸ hlt v hv) (lt_irrefl _)
    · simp only [List.map_append, List.map_cons, List.map_nil]
      rw [List.nodup_append]
      refine ⟨hem, List.nodup_singleton _, List.disjoint_singleton.mpr ?_⟩
      intro hcon
      obtain ⟨v, hv, hva⟩ := List.mem_map.mp hcon
      exact hfresh ⟨v, hv, hva⟩
    · intro v hv
      rcases List.mem_append.mp hv with h1 | h1
      · exact lt_trans (hlt v h1) (lt_add_one _)
      · rw [List.mem_singleton.mp h1]
        exact lt_add_one _

theorem update_inv (db : DB) (oi : Option Int) (nm em : String) (u : User)
    (db2 : DB) (hinv : db.Inv)
    (h : PrismaUser.update db oi nm em = .ok (u, db2)) : db2.Inv := by
  obtain ⟨hid, hem, hlt⟩ := hinv
  simp only [PrismaUser.update] at h
  match oi with
  | none => exact absurd h (by simp)
  | some n =>
    simp only at h
    split at h
    · split at h
      · exact absurd h (by simp)
      · next hfresh =>
        simp only [Except.ok.injEq, Prod.mk.injEq] at h
        obtain ⟨hu, hdb⟩ := h
        subst hdb
        have hfr : ∀ v ∈ db.rows, v.id ≠ n → v.email ≠ em := by
          intro v hv hvn hve
          exact hfresh ⟨v, hv, hvn, hve⟩
        refine ⟨?_, nodup_email_updOne db.rows n nm em hid hem hfr, ?_⟩
        · rw [map_id_updOne]
          exact hid
        · intro v hv
          obtain ⟨w, hw, hwv⟩ := List.mem_map.mp hv
          have : v.id = w.id := by rw [← hwv, updOne_id]
          rw [this]
          exact hlt w hw
    · exact absurd h (by simp)

theorem delete_inv (db : DB) (oi : Option Int) (db2 : DB) (hinv : db.Inv)
    (h : PrismaUser.delete db oi = .ok db2) : db2.Inv := by
  obtain ⟨hid, hem, hlt⟩ := hinv
  simp only [PrismaUser.delete] at h
  match oi with
  | none => exact absurd h (by simp)
  | some n =>
    simp only at h
    split at h
    · simp only [Except.ok.injEq] at h
      subst h
      have hsub : List.Sublist (db.rows.filter (fun u => u.id != n)) db.rows :=
        List.filter_sublist db.rows
      refine ⟨?_, ?_, ?_⟩
      · exact ((hsub.map User.id).nodup hid)
      · exact ((hsub.map User.email).nodup hem)
      · intro v hv
        exact hlt v (hsub.mem hv)
    · exact absurd h (by simp)

theorem stepDB_inv (db : DB) (op : Op) (hinv : db.Inv) : (stepDB db op).Inv := by
  match op with
  | .post n e =>
    simp only [stepDB, UsersRoute.POST]
    match hc : PrismaUser.create db n e with
    | .ok p => exact create_inv db n e p.1 p.2 hinv hc
    | .error _ => exact hinv
  | .put i n e =>
    simp only [stepDB, UserIdRoute.PUT]
    match hc : PrismaUser.update db (parseIntJS i) n e with
    | .ok p => exact update_inv db (parseIntJS i) n e p.1 p.2 hinv hc
    | .error _ => exact hinv
  | .del i =>
    simp only [stepDB, UserIdRoute.DELETE]
    match hc : PrismaUser.delete db (parseIntJS i) with
    | .ok d => exact delete_inv db (parseIntJS i) d hinv hc
    | .error _ => exact hinv

theorem runOps_inv (db : DB) (ops : List Op) (hinv : db.Inv) :
    (runOps db ops).Inv := by
  induction ops generalizing db with
  | nil => exact hinv
  | cons op rest ih =>
    simp only [runOps, List.foldl_cons]
    exact ih (stepDB db op) (stepDB_inv db op hinv)

/-! Theorems for the specification claims. -/

/-- C7: for an id string that `parseInt` cannot read (the `NaN` case), the
read-by-id handler passes the not-a-number value on to the query, which
matches no row, and the handler answers with the 404 not-found response —
never with a row and never with a different error. -/
theorem getById_non_numeric (db : DB) (s : String) (h : parseIntJS s = none) :
    UserIdRoute.GET db s = ⟨404, Body.message "User not found"⟩ := by
  unfold UserIdRoute.GET PrismaUser.findUnique
  rw [h]

/-- Witness: on the concrete id string `"abc"`, which parses to `NaN`, the
read-by-id handler answers 404 on a concrete one-row database. -/
theorem getById_non_numeric_witness :
    parseIntJS "abc" = none ∧
      UserIdRoute.GET ⟨[⟨1, "Ada", "ada@example.com"⟩], 2⟩ "abc" =
        ⟨404, Body.message "User not found"⟩ :=
  ⟨by decide, getById_non_numeric ⟨[⟨1, "Ada", "ada@example.com"⟩], 2⟩ "abc"
    (by decide)⟩

/-- C9: in the list view, when the delete response is not `ok`, the
`deleteUser` handler throws before touching the local state, so the displayed
`users` list is left unchanged — the `ok` check gates the local removal. -/
theorem deleteUser_not_ok (users : List User) (i : Int) :
    deleteUser users false i = users := rfl

/-- C10: when the delete response is `ok`, the `deleteUser` handler keeps the
displayed list a sublist of the original (so relative order is preserved),
removes every entry whose id equals the deleted id, keeps every entry with a
different id, and preserves the multiplicity of every kept entry. -/
theorem deleteUser_ok_filter (users : List User) (i : Int) :
    List.Sublist (deleteUser users true i) users ∧
    (∀ u ∈ deleteUser users true i, u.id ≠ i) ∧
    (∀ u ∈ users, u.id ≠ i → u ∈ deleteUser users true i) ∧
    ∀ u : User, u.id ≠ i →
      (deleteUser users true i).countP (fun v => decide (v = u)) =
        users.countP (fun v => decide (v = u)) := by
  have hdu : deleteUser users true i = users.filter (fun u => u.id != i) := rfl
  rw [hdu]
  refine ⟨List.filter_sublist users, ?_, ?_, ?_⟩
  · intro u hu
    exact bne_iff_ne.mp (List.mem_filter.mp hu).2
  · intro u hu hne
    exact List.mem_filter.mpr ⟨hu, bne_iff_ne.mpr hne⟩
  · intro u hne
    rw [List.countP_filter]
    apply List.countP_congr
    intro v hv
    constructor
    · intro hb
      exact (Bool.and_eq_true _ _ |>.mp hb).1
    · intro hb
      have hvu : v = u := of_decide_eq_true hb
      refine Bool.and_eq_true _ _ |>.mpr ⟨hb, ?_⟩
      exact bne_iff_ne.mpr (by rw [hvu]; exact hne)

/-- C5: for an id string whose parsed value matches no persisted row (a
missing numeric id or a `NaN`), the update and delete handlers do not
special-case the not-found condition: the record-not-found error of the data
layer propagates out of the handler unhandled, instead of a 404 response. -/
theorem put_delete_missing_id (db : DB) (s nm em : String)
    (h : ∀ u ∈ db.rows, parseIntJS s ≠ some u.id) :
    UserIdRoute.PUT db s nm em = .error .recordNotFound ∧
    UserIdRoute.DELETE db s = .error .recordNotFound := by
  cases hp : parseIntJS s with
  | none =>
    constructor
    · unfold UserIdRoute.PUT PrismaUser.update
      rw [hp]
      rfl
    · unfold UserIdRoute.DELETE PrismaUser.delete
      rw [hp]
      rfl
  | some n =>
    have hne : ¬∃ u ∈ db.rows, u.id = n := by
      rintro ⟨u, hu, hun⟩
      exact h u hu (by rw [hp, hun])
    constructor
    · unfold UserIdRoute.PUT PrismaUser.update
      simp only [hp]
      rw [if_neg hne]
      rfl
    · unfold UserIdRoute.DELETE PrismaUser.delete
      simp only [hp]
      rw [if_neg hne]
      rfl

/-- Witness: on a concrete one-row database with id 1, the update and delete
handlers both fail unhandled with the record-not-found error for id `"2"`. -/
theorem put_delete_missing_id_witness :
    (∀ u ∈ (DB.mk [⟨1, "Ada", "ada@example.com"⟩] 2).rows,
        parseIntJS "2" ≠ some u.id) ∧
      UserIdRoute.PUT ⟨[⟨1, "Ada", "ada@example.com"⟩], 2⟩ "2" "B" "b@x.com" =
        .error .recordNotFound ∧
      UserIdRoute.DELETE ⟨[⟨1, "Ada", "ada@example.com"⟩], 2⟩ "2" =
        .error .recordNotFound :=
  ⟨by decide,
    put_delete_missing_id ⟨[⟨1, "Ada", "ada@example.com"⟩], 2⟩ "2" "B" "b@x.com"
      (by decide)⟩

/-- C4: creating a user whose email is not yet persisted succeeds, inserts
exactly one new row at the end of the table, returns that row with the
engine-generated id, and a subsequent list call returns the old rows plus
exactly that one new entry with the submitted name and email. -/
theorem post_fresh_email (db : DB) (nm em : String)
    (hfresh : ¬∃ u ∈ db.rows, u.email = em) :
    ∃ u : User, ∃ db2 : DB,
      UsersRoute.POST db nm em = .ok (⟨200, Body.user u⟩, db2) ∧
      u.name = nm ∧ u.email = em ∧ u.id = db.nextId ∧
      db2.rows = db.rows ++ [u] ∧
      UsersRoute.GET db2 = ⟨200, Body.users (db.rows ++ [u])⟩ := by
  have hpost : UsersRoute.POST db nm em =
      .ok (⟨200, Body.user ⟨db.nextId, nm, em⟩⟩,
        ⟨db.rows ++ [⟨db.nextId, nm, em⟩], db.nextId + 1⟩) := by
    unfold UsersRoute.POST PrismaUser.create
    rw [if_neg hfresh]
    rfl
  refine ⟨⟨db.nextId, nm, em⟩, ⟨db.rows ++ [⟨db.nextId, nm, em⟩], db.nextId + 1⟩,
    hpost, ?_, ?_, ?_, ?_, ?_⟩ <;> rfl

/-- Witness: creating `Bob` with a fresh email on a concrete one-row database
yields the new row with the generated id 2 and the two-row listing. -/
theorem post_fresh_email_witness :
    (¬∃ u ∈ (DB.mk [⟨1, "Ada", "ada@example.com"⟩] 2).rows,
        u.email = "bob@example.com") ∧
      ∃ u : User, ∃ db2 : DB,
        UsersRoute.POST ⟨[⟨1, "Ada", "ada@example.com"⟩], 2⟩ "Bob"
            "bob@example.com" = .ok (⟨200, Body.user u⟩, db2) ∧
        u.name = "Bob" ∧ u.email = "bob@example.com" ∧
        u.id = (DB.mk [⟨1, "Ada", "ada@example.com"⟩] 2).nextId ∧
        db2.rows = (DB.mk [⟨1, "Ada", "ada@example.com"⟩] 2).rows ++ [u] ∧
        UsersRoute.GET db2 =
          ⟨200, Body.users ((DB.mk [⟨1, "Ada", "ada@example.com"⟩] 2).rows ++ [u])⟩ :=
  ⟨by decide,
    post_fresh_email ⟨[⟨1, "Ada", "ada@example.com"⟩], 2⟩ "Bob" "bob@example.com"
      (by decide)⟩

/-- C1: under the schema invariant, the read-by-id handler answers the 404
`{message: "User not found"}` response exactly when no persisted row has the
parsed id; when a matching row exists it returns that row; and any row it
ever returns is a persisted row whose id is the parsed id, so an id that was
never created can never yield a row. -/
theorem getById_found_or_404 (db : DB) (s : String) (hinv : db.Inv) :
    ((∀ u ∈ db.rows, parseIntJS s ≠ some u.id) →
      UserIdRoute.GET db s = ⟨404, Body.message "User not found"⟩) ∧
    (∀ u ∈ db.rows, parseIntJS s = some u.id →
      UserIdRoute.GET db s = ⟨200, Body.user u⟩) ∧
    ∀ u : User, UserIdRoute.GET db s = ⟨200, Body.user u⟩ →
      u ∈ db.rows ∧ parseIntJS s = some u.id := by
  obtain ⟨hid, -, -⟩ := hinv
  refine ⟨?_, ?_, ?_⟩
  · intro hnone
    have hq : PrismaUser.findUnique db (parseIntJS s) = none := by
      unfold PrismaUser.findUnique
      cases hp : parseIntJS s with
      | none => rfl
      | some n =>
        apply List.find?_eq_none.mpr
        intro v hv hcon
        simp only [beq_iff_eq] at hcon
        exact hnone v hv (by rw [hp, hcon])
    unfold UserIdRoute.GET
    rw [hq]
  · intro u hu hp
    have hq : PrismaUser.findUnique db (parseIntJS s) = some u := by
      unfold PrismaUser.findUnique
      simp only [hp]
      exact find_id_eq db.rows u.id u hid hu rfl
    unfold UserIdRoute.GET
    rw [hq]
  · intro u hres
    unfold UserIdRoute.GET at hres
    match hq : PrismaUser.findUnique db (parseIntJS s) with
    | none =>
      rw [hq] at hres
      exact absurd hres (by simp)
    | some v =>
      rw [hq] at hres
      simp only [Response.mk.injEq, Body.user.injEq] at hres
      obtain ⟨-, hvu⟩ := hres
      subst hvu
      unfold PrismaUser.findUnique at hq
      cases hp : parseIntJS s with
      | none =>
        rw [hp] at hq
        exact absurd hq (by simp)
      | some n =>
        rw [hp] at hq
        simp only at hq
        have hmem := List.mem_of_find?_eq_some hq
        have hpv := List.find?_some hq
        simp only [beq_iff_eq] at hpv
        exact ⟨hmem, by rw [hpv]⟩

/-- Witness: on a concrete one-row database satisfying the invariant, the
read-by-id characterization holds for the id string `"1"`. -/
theorem getById_found_or_404_witness :
    DB.Inv ⟨[⟨1, "Ada", "ada@example.com"⟩], 2⟩ ∧
      (((∀ u ∈ (DB.mk [⟨1, "Ada", "ada@example.com"⟩] 2).rows,
            parseIntJS "1" ≠ some u.id) →
          UserIdRoute.GET ⟨[⟨1, "Ada", "ada@example.com"⟩], 2⟩ "1" =
            ⟨404, Body.message "User not found"⟩) ∧
        (∀ u ∈ (DB.mk [⟨1, "Ada", "ada@example.com"⟩] 2).rows,
          parseIntJS "1" = some u.id →
          UserIdRoute.GET ⟨[⟨1, "Ada", "ada@example.com"⟩], 2⟩ "1" =
            ⟨200, Body.user u⟩) ∧
        ∀ u : User,
          UserIdRoute.GET ⟨[⟨1, "Ada", "ada@example.com"⟩], 2⟩ "1" =
            ⟨200, Body.user u⟩ →
          u ∈ (DB.mk [⟨1, "Ada", "ada@example.com"⟩] 2).rows ∧
            parseIntJS "1" = some u.id) :=
  ⟨by unfold DB.Inv; decide,
    getById_found_or_404 ⟨[⟨1, "Ada", "ada@example.com"⟩], 2⟩ "1"
      (by unfold DB.Inv; decide)⟩

/-- C2: starting from any state satisfying the schema invariant (in
particular the empty database), after any sequence of create, update and
delete handler calls the persisted state never holds two rows with the same
email: the email column remains duplicate-free. -/
theorem emails_nodup_runOps (db : DB) (ops : List Op) (hinv : db.Inv) :
    ((runOps db ops).rows.map User.email).Nodup :=
  (runOps_inv db ops hinv).2.1

/-- Witness: from the empty database, a concrete sequence in which the second
create reuses the first email still leaves all persisted emails distinct. -/
theorem emails_nodup_runOps_witness :
    DB.Inv ⟨[], 1⟩ ∧
      ((runOps ⟨[], 1⟩
          [Op.post "Ada" "ada@example.com", Op.post "Bob" "ada@example.com",
            Op.post "Bob" "bob@example.com"]).rows.map User.email).Nodup :=
  ⟨by unfold DB.Inv; decide,
    emails_nodup_runOps ⟨[], 1⟩
      [Op.post "Ada" "ada@example.com", Op.post "Bob" "ada@example.com",
        Op.post "Bob" "bob@example.com"] (by unfold DB.Inv; decide)⟩

/-- C3: under the schema invariant, updating an existing id with a payload
whose email does not collide with another row overwrites both `name` and
`email` unconditionally, returns the updated row, and a subsequent read-by-id
on the same id string returns the new name and email, not the originals. -/
theorem put_then_get (db : DB) (s nm em : String) (n : Int)
    (hinv : db.Inv) (hp : parseIntJS s = some n)
    (hex : ∃ u ∈ db.rows, u.id = n)
    (hfresh : ¬∃ u ∈ db.rows, u.id ≠ n ∧ u.email = em) :
    ∃ db2 : DB,
      UserIdRoute.PUT db s nm em = .ok (⟨200, Body.user ⟨n, nm, em⟩⟩, db2) ∧
      UserIdRoute.GET db2 s = ⟨200, Body.user ⟨n, nm, em⟩⟩ := by
  obtain ⟨hid, -, -⟩ := hinv
  refine ⟨⟨db.rows.map (PrismaUser.updOne n nm em), db.nextId⟩, ?_, ?_⟩
  · unfold UserIdRoute.PUT PrismaUser.update
    simp only [hp]
    rw [if_pos hex, if_neg hfresh]
    rfl
  · have hid2 :
        (((db.rows.map (PrismaUser.updOne n nm em))).map User.id).Nodup := by
      rw [map_id_updOne]
      exact hid
    have hmem :
        (⟨n, nm, em⟩ : User) ∈ db.rows.map (PrismaUser.updOne n nm em) := by
      obtain ⟨u, hu, hun⟩ := hex
      refine List.mem_map.mpr ⟨u, hu, ?_⟩
      unfold PrismaUser.updOne
      rw [if_pos hun, hun]
    unfold UserIdRoute.GET PrismaUser.findUnique
    simp only [hp]
    rw [find_id_eq _ n _ hid2 hmem rfl]

/-- Witness: on a concrete one-row database, updating id 1 from the id string
`"1"` to a new name and email succeeds and the re-read returns the new row. -/
theorem put_then_get_witness :
    DB.Inv ⟨[⟨1, "Ada", "ada@example.com"⟩], 2⟩ ∧
      parseIntJS "1" = some 1 ∧
      (∃ u ∈ (DB.mk [⟨1, "Ada", "ada@example.com"⟩] 2).rows, u.id = 1) ∧
      (¬∃ u ∈ (DB.mk [⟨1, "Ada", "ada@example.com"⟩] 2).rows,
          u.id ≠ 1 ∧ u.email = "lovelace@example.com") ∧
      ∃ db2 : DB,
        UserIdRoute.PUT ⟨[⟨1, "Ada", "ada@example.com"⟩], 2⟩ "1" "Ada L."
            "lovelace@example.com" =
          .ok (⟨200, Body.user ⟨1, "Ada L.", "lovelace@example.com"⟩⟩, db2) ∧
        UserIdRoute.GET db2 "1" =
          ⟨200, Body.user ⟨1, "Ada L.", "lovelace@example.com"⟩⟩ :=
  ⟨by unfold DB.Inv; decide, by decide, by decide, by decide,
    put_then_get ⟨[⟨1, "Ada", "ada@example.com"⟩], 2⟩ "1" "Ada L."
      "lovelace@example.com" 1 (by unfold DB.Inv; decide) (by decide)
      (by decide) (by decide)⟩

/-- C6: deleting an existing id succeeds with the confirmation body
`{message: "User deleted"}`, the row is removed so no persisted row carries
that id any more and the subsequent listing (which returns exactly the
remaining rows) no longer includes it, and repeating the same delete fails
with the unhandled record-not-found error instead of silently succeeding. -/
theorem delete_then_list (db : DB) (s : String) (n : Int)
    (hp : parseIntJS s = some n) (hex : ∃ u ∈ db.rows, u.id = n) :
    ∃ db2 : DB,
      UserIdRoute.DELETE db s = .ok (⟨200, Body.message "User deleted"⟩, db2) ∧
      (∀ u ∈ db2.rows, u.id ≠ n) ∧
      UsersRoute.GET db2 = ⟨200, Body.users db2.rows⟩ ∧
      UserIdRoute.DELETE db2 s = .error .recordNotFound := by
  refine ⟨⟨db.rows.filter (fun u => u.id != n), db.nextId⟩, ?_, ?_, rfl, ?_⟩
  · unfold UserIdRoute.DELETE PrismaUser.delete
    simp only [hp]
    rw [if_pos hex]
    rfl
  · intro u hu
    exact bne_iff_ne.mp (List.mem_filter.mp hu).2
  · have hne :
        ¬∃ u ∈ (db.rows.filter (fun u => u.id != n)), u.id = n := by
      rintro ⟨u, hu, hun⟩
      exact absurd hun (bne_iff_ne.mp (List.mem_filter.mp hu).2)
    unfold UserIdRoute.DELETE PrismaUser.delete
    simp only [hp]
    rw [if_neg hne]
    rfl

/-- Witness: on a concrete two-row database, deleting the id string `"1"`
succeeds with the confirmation message, the listing keeps only id 2, and a
second delete of `"1"` fails with the record-not-found error. -/
theorem delete_then_list_witness :
    parseIntJS "1" = some 1 ∧
      (∃ u ∈ (DB.mk [⟨1, "Ada", "ada@example.com"⟩,
          ⟨2, "Bob", "bob@example.com"⟩] 3).rows, u.id = 1) ∧
      ∃ db2 : DB,
        UserIdRoute.DELETE
            ⟨[⟨1, "Ada", "ada@example.com"⟩, ⟨2, "Bob", "bob@example.com"⟩], 3⟩
            "1" =
          .ok (⟨200, Body.message "User deleted"⟩, db2) ∧
        (∀ u ∈ db2.rows, u.id ≠ 1) ∧
        UsersRoute.GET db2 = ⟨200, Body.users db2.rows⟩ ∧
        UserIdRoute.DELETE db2 "1" = .error .recordNotFound :=
  ⟨by decide, by decide,
    delete_then_list
      ⟨[⟨1, "Ada", "ada@example.com"⟩, ⟨2, "Bob", "bob@example.com"⟩], 3⟩
      "1" 1 (by decide) (by decide)⟩

/-- C8: whenever the update handler succeeds, the id column of the persisted
table is exactly what it was before (the auto-increment counter included):
the row whose id was targeted keeps its id and only its name and email are
overwritten, and every row with a different id is kept completely
unchanged. -/
theorem put_id_immutable (db : DB) (s nm em : String) (r : Response)
    (db2 : DB) (h : UserIdRoute.PUT db s nm em = .ok (r, db2)) :
    db2.rows.map User.id = db.rows.map User.id ∧
    db2.nextId = db.nextId ∧
    ∀ u ∈ db.rows,
      (parseIntJS s = some u.id → User.mk u.id nm em ∈ db2.rows) ∧
      (parseIntJS s ≠ some u.id → u ∈ db2.rows) := by
  unfold UserIdRoute.PUT PrismaUser.update at h
  cases hp : parseIntJS s with
  | none =>
    rw [hp] at h
    exact absurd h (by simp [Except.map])
  | some n =>
    simp only [hp] at h
    by_cases hA : ∃ u ∈ db.rows, u.id = n
    · by_cases hB : ∃ u ∈ db.rows, u.id ≠ n ∧ u.email = em
      · rw [if_pos hA, if_pos hB] at h
        exact absurd h (by simp [Except.map])
      · rw [if_pos hA, if_neg hB] at h
        simp only [Except.map, Except.ok.injEq, Prod.mk.injEq] at h
        obtain ⟨-, hdb⟩ := h
        subst hdb
        refine ⟨map_id_updOne db.rows n nm em, rfl, ?_⟩
        intro u hu
        constructor
        · intro hps
          have hn : n = u.id := by injection hps
          refine List.mem_map.mpr ⟨u, hu, ?_⟩
          unfold PrismaUser.updOne
          rw [if_pos hn.symm]
        · intro hps
          have hne : u.id ≠ n := fun hh => hps (by rw [hh])
          refine List.mem_map.mpr ⟨u, hu, ?_⟩
          unfold PrismaUser.updOne
          rw [if_neg hne]
    · rw [if_neg hA] at h
      exact absurd h (by simp [Except.map])

/-- Witness: on a concrete two-row database, the successful update of id 1
keeps the id column `[1, 2]` and the counter unchanged, rewrites only the
targeted row, and keeps row 2 untouched. -/
theorem put_id_immutable_witness :
    UserIdRoute.PUT
        ⟨[⟨1, "Ada", "ada@example.com"⟩, ⟨2, "Bob", "bob@example.com"⟩], 3⟩
        "1" "Ada L." "lovelace@example.com" =
      .ok (⟨200, Body.user ⟨1, "Ada L.", "lovelace@example.com"⟩⟩,
        ⟨[⟨1, "Ada L.", "lovelace@example.com"⟩,
          ⟨2, "Bob", "bob@example.com"⟩], 3⟩) ∧
      (DB.mk [⟨1, "Ada L.", "lovelace@example.com"⟩,
          ⟨2, "Bob", "bob@example.com"⟩] 3).rows.map User.id =
        (DB.mk [⟨1, "Ada", "ada@example.com"⟩,
          ⟨2, "Bob", "bob@example.com"⟩] 3).rows.map User.id ∧
      (DB.mk [⟨1, "Ada L.", "lovelace@example.com"⟩,
          ⟨2, "Bob", "bob@example.com"⟩] 3).nextId =
        (DB.mk [⟨1, "Ada", "ada@example.com"⟩,
          ⟨2, "Bob", "bob@example.com"⟩] 3).nextId ∧
      ∀ u ∈ (DB.mk [⟨1, "Ada", "ada@example.com"⟩,
          ⟨2, "Bob", "bob@example.com"⟩] 3).rows,
        (parseIntJS "1" = some u.id →
          User.mk u.id "Ada L." "lovelace@example.com" ∈
            (DB.mk [⟨1, "Ada L.", "lovelace@example.com"⟩,
              ⟨2, "Bob", "bob@example.com"⟩] 3).rows) ∧
        (parseIntJS "1" ≠ some u.id →
          u ∈ (DB.mk [⟨1, "Ada L.", "lovelace@example.com"⟩,
            ⟨2, "Bob", "bob@example.com"⟩] 3).rows) :=
  ⟨rfl,
    put_id_immutable
      ⟨[⟨1, "Ada", "ada@example.com"⟩, ⟨2, "Bob", "bob@example.com"⟩], 3⟩
      "1" "Ada L." "lovelace@example.com"
      ⟨200, Body.user ⟨1, "Ada L.", "lovelace@example.com"⟩⟩
      ⟨[⟨1, "Ada L.", "lovelace@example.com"⟩,
        ⟨2, "Bob", "bob@example.com"⟩], 3⟩ rfl⟩
